import Mathlib

/-!
Shallow embedding of the molecules CRUD service
(`src/molecules/{service,repository,search,tasks}.py`).

The external chemistry capability (RDKit) is abstracted as a `Chem`
structure: a parser from structure strings to molecular graphs and a
subgraph-containment test.  The Redis cache and the relational store are
modelled as deterministic in-memory maps (their backend-error branches in
the Python merely swallow exceptions around external I/O); the Celery job
lifecycle is modelled by the worker function's `Except` result: `.ok`
carries the `SUCCESS` payload and `.error` the failure description
surfaced when the job is polled in the `FAILURE` state.
-/

set_option autoImplicit false

namespace Molecules

/-- The external chemistry capability: `parse` models `Chem.MolFromSmiles`
(`none` for an unparseable string), and `hasSubstructMatch m q` models
`m.HasSubstructMatch(q)`: the graph of the query `q` is contained in the
graph of the molecule `m`. -/
structure Chem where
  Mol : Type
  parse : String → Option Mol
  hasSubstructMatch : Mol → Mol → Bool

/-- Truthiness of a Python `Optional[str]`: `None` and the empty string are
falsy, every other string is truthy. -/
def pyTruthy : Option String → Bool
  | none => false
  | some s => !(s == "")

/-- A molecule record: the `Molecule` ORM row and the `MoleculeInDB` schema
share these fields, and `MoleculeInDB.model_validate` copies them
field-for-field, so one structure models both. -/
structure MoleculeInDB where
  id : Nat
  smiles_string : String
  name : Option String
deriving DecidableEq, Repr

/-- Payload of `create`: a structure string and an optional name. -/
structure MoleculeCreate where
  smiles_string : String
  name : Option String
deriving DecidableEq, Repr

/-- Partial-update payload: a field is `none` when it is absent from the
request (pydantic "unset", dropped by `model_dump(exclude_unset=True)`)
and `some v` when the request sets it to `v`. -/
structure MoleculeUpdate where
  smiles_string : Option String
  name : Option String
deriving DecidableEq, Repr

/-- The relational store: the bag of rows of the `molecules` table plus the
state of the id sequence (`nextId` is the id the next insert receives;
ids are store-assigned and immutable). -/
structure Store where
  nextId : Nat
  records : List MoleculeInDB
deriving DecidableEq, Repr

/-- A store-level error: the uniqueness constraint on `smiles_string`
surfacing as an integrity violation. -/
inductive StoreError where
  | uniqueViolation : String → StoreError
deriving DecidableEq, Repr

/-- Model of `MoleculeRepository.get_by_id`: the row with the given primary key. -/
def Store.get_by_id (st : Store) (molecule_id : Nat) : Option MoleculeInDB :=
  st.records.find? (fun r => r.id == molecule_id)

/-- Model of `MoleculeRepository.add`: inserts a fresh row with the next sequence id;
a duplicate `smiles_string` violates the unique constraint. -/
def Store.add (st : Store) (molecule : MoleculeCreate) :
    Except StoreError (MoleculeInDB × Store) :=
  if st.records.any (fun r => r.smiles_string == molecule.smiles_string) then
    .error (.uniqueViolation molecule.smiles_string)
  else
    .ok (⟨st.nextId, molecule.smiles_string, molecule.name⟩,
      ⟨st.nextId + 1, st.records ++ [⟨st.nextId, molecule.smiles_string, molecule.name⟩]⟩)

/-- Application of the set fields of a partial update to one row. -/
def applyUpdate (r : MoleculeInDB) (u : MoleculeUpdate) : MoleculeInDB :=
  { r with
    smiles_string := u.smiles_string.getD r.smiles_string,
    name := match u.name with
      | none => r.name
      | some n => some n }

/-- Model of `MoleculeRepository.update`: `none` when the id has no row; an update
with no set fields returns the current row unchanged with no write;
otherwise the set fields are written (a `smiles_string` colliding with a
different row violates the unique constraint) and the refreshed row is
returned. -/
def Store.update (st : Store) (molecule_id : Nat) (molecule_data : MoleculeUpdate) :
    Except StoreError (Option (MoleculeInDB × Store)) :=
  match st.get_by_id molecule_id with
  | none => .ok none
  | some row =>
    if molecule_data.smiles_string.isNone && molecule_data.name.isNone then
      .ok (some (row, st))
    else
      match molecule_data.smiles_string with
      | some s =>
        if st.records.any (fun r => r.smiles_string == s && !(r.id == molecule_id)) then
          .error (.uniqueViolation s)
        else
          .ok (some (applyUpdate row molecule_data,
            ⟨st.nextId, st.records.map (fun r =>
              if r.id == molecule_id then applyUpdate r molecule_data else r)⟩))
      | none =>
        .ok (some (applyUpdate row molecule_data,
          ⟨st.nextId, st.records.map (fun r =>
            if r.id == molecule_id then applyUpdate r molecule_data else r)⟩))

/-- Model of `MoleculeRepository.delete`: `true` iff a row existed and was removed. -/
def Store.delete (st : Store) (molecule_id : Nat) : Bool × Store :=
  match st.get_by_id molecule_id with
  | none => (false, st)
  | some _ => (true, ⟨st.nextId, st.records.filter (fun r => !(r.id == molecule_id))⟩)

/-- Model of `MoleculeRepository.get_all_smiles_stream`: every `smiles_string`,
ordered ascending by record id (`ORDER BY id ASC`). -/
def Store.get_all_smiles_stream (st : Store) : List String :=
  (List.insertionSort (fun a b => a.id ≤ b.id) st.records).map (fun r => r.smiles_string)

/-- The Redis cache, as the association of keys to the records whose JSON
serialization they hold (serialize/deserialize round-trips, so the value is
kept structured). -/
abbrev Cache := List (String × MoleculeInDB)

/-- Redis `GET key`. -/
def cacheGet (cache : Cache) (key : String) : Option MoleculeInDB :=
  cache.lookup key

/-- Redis `DELETE key`. -/
def cacheDelete (cache : Cache) (key : String) : Cache :=
  cache.filter (fun p => !(p.1 == key))

/-- Redis `SET key value EX 3600` (the TTL plays no role in this sequential
model). -/
def cacheSet (cache : Cache) (key : String) (value : MoleculeInDB) : Cache :=
  (key, value) :: cacheDelete cache key

/-- The cache key for a molecule id. -/
def molKey (molecule_id : Nat) : String :=
  "molecule:" ++ toString molecule_id

/-- The service's process-local RDKit memo (`self.rdkit_cache`). -/
abbrev RdkitCache := List (String × Bool)

/-- The mutable state a `MoleculeService` call can read or write: the
store, the Redis cache, and the validator memo. -/
structure ServiceState where
  store : Store
  cache : Cache
  rdkit_cache : RdkitCache
deriving DecidableEq, Repr

/-- Model of `MoleculeService._validate_smiles`: memo lookup first, else parse;
only valid strings are memoized (mapped to `true`).  Totality of this Lean
function models the no-raise contract. -/
def validateSmiles (chem : Chem) (rdkit_cache : RdkitCache) (smiles : String) :
    Bool × RdkitCache :=
  match rdkit_cache.lookup smiles with
  | some b => (b, rdkit_cache)
  | none =>
    if (chem.parse smiles).isSome then (true, (smiles, true) :: rdkit_cache)
    else (false, rdkit_cache)

/-- The typed failures a service call can raise:
`InvalidSmilesStringException`, `MoleculeNotFoundException`, and the
store's propagated uniqueness violation. -/
inductive ServiceError where
  | invalidSmiles : String → ServiceError
  | notFound : Nat → ServiceError
  | conflict : String → ServiceError
deriving DecidableEq, Repr

/-- Model of `MoleculeService.create_molecule`: validate the structure, raise
`InvalidSmilesStringException` when invalid, else delegate to the store's
`add` and return the new record. -/
def createMolecule (chem : Chem) (st : ServiceState) (molecule_create : MoleculeCreate) :
    Except ServiceError MoleculeInDB × ServiceState :=
  match validateSmiles chem st.rdkit_cache molecule_create.smiles_string with
  | (false, rc) => (.error (.invalidSmiles molecule_create.smiles_string),
      { st with rdkit_cache := rc })
  | (true, rc) =>
    match st.store.add molecule_create with
    | .error (.uniqueViolation s) => (.error (.conflict s), { st with rdkit_cache := rc })
    | .ok (row, store1) => (.ok row, { st with store := store1, rdkit_cache := rc })

/-- Model of `MoleculeService.get_molecule_by_id`: cache-first; on a hit the cached
record is returned with no store access; on a miss the store is read, a
missing row raises `MoleculeNotFoundException`, and a found row is written
back to the cache before being returned. -/
def getMolecule (st : ServiceState) (molecule_id : Nat) :
    Except ServiceError MoleculeInDB × ServiceState :=
  match cacheGet st.cache (molKey molecule_id) with
  | some cached => (.ok cached, st)
  | none =>
    match st.store.get_by_id molecule_id with
    | none => (.error (.notFound molecule_id), st)
    | some row =>
      (.ok row, { st with cache := cacheSet st.cache (molKey molecule_id) row })

/-- The tail of `MoleculeService.update_molecule` after the validation
guard: delegate to the store, raise `MoleculeNotFoundException` on a
missing row, and on success delete the cache entry before returning the
updated record. -/
def updateMoleculeTail (st : ServiceState) (molecule_id : Nat)
    (molecule_update : MoleculeUpdate) :
    Except ServiceError MoleculeInDB × ServiceState :=
  match st.store.update molecule_id molecule_update with
  | .error (.uniqueViolation s) => (.error (.conflict s), st)
  | .ok none => (.error (.notFound molecule_id), st)
  | .ok (some (row, store1)) =>
    (.ok row,
      { st with store := store1, cache := cacheDelete st.cache (molKey molecule_id) })

/-- Model of `MoleculeService.update_molecule`: the guard
`if molecule_update.smiles_string and not self._validate_smiles(...)`
validates only a truthy (present and non-empty) structure field, raising
`InvalidSmilesStringException` when it is invalid; then the store update
and cache invalidation (`updateMoleculeTail`). -/
def updateMolecule (chem : Chem) (st : ServiceState) (molecule_id : Nat)
    (molecule_update : MoleculeUpdate) :
    Except ServiceError MoleculeInDB × ServiceState :=
  match molecule_update.smiles_string with
  | some s =>
    if pyTruthy (some s) then
      match validateSmiles chem st.rdkit_cache s with
      | (false, rc) => (.error (.invalidSmiles s), { st with rdkit_cache := rc })
      | (true, rc) =>
        updateMoleculeTail { st with rdkit_cache := rc } molecule_id molecule_update
    else
      updateMoleculeTail st molecule_id molecule_update
  | none => updateMoleculeTail st molecule_id molecule_update

/-- Model of `MoleculeService.delete_molecule`: delegate to the store, raise
`MoleculeNotFoundException` when it reports `false`, and on success delete
the cache entry before returning the confirmation message. -/
def deleteMolecule (st : ServiceState) (molecule_id : Nat) :
    Except ServiceError String × ServiceState :=
  match st.store.delete molecule_id with
  | (false, _) => (.error (.notFound molecule_id), st)
  | (true, store1) =>
    (.ok ("Molecule " ++ toString molecule_id ++ " deleted successfully."),
      { st with store := store1, cache := cacheDelete st.cache (molKey molecule_id) })

/-- The loop body of `substructure_search`: a candidate is kept when
`mol is not None and mol.HasSubstructMatch(substructure_mol)`. -/
def matchesQuery (chem : Chem) (substructure_mol : chem.Mol) (molecule : String) : Bool :=
  match chem.parse molecule with
  | none => false
  | some mol => chem.hasSubstructMatch mol substructure_mol

/-- Model of `substructure_search` (`src/molecules/search.py`): parse the query
(`ValueError("Invalid substructure")` when it fails), then keep each
candidate whose parsed graph contains the query graph (`matchesQuery`);
candidates that fail to parse are skipped. -/
def substructure_search (chem : Chem) (molecules : List String) (substructure : String) :
    Except String (List String) :=
  match chem.parse substructure with
  | none => .error "Invalid substructure"
  | some substructure_mol =>
    .ok (molecules.filter (matchesQuery chem substructure_mol))

/-- The `run_substructure_search` Celery task: fetch every structure string
from the store (ascending by id), return an empty list when the table is
empty, else run the search.  `.ok` is the job's `SUCCESS` payload; `.error`
carries the description of the propagated exception, which polling surfaces
as the `FAILURE` result. -/
def run_substructure_search (chem : Chem) (store : Store) (substructure_smiles : String) :
    Except String (List String) :=
  let molecule_smiles_list := store.get_all_smiles_stream
  if molecule_smiles_list.isEmpty then .ok []
  else substructure_search chem molecule_smiles_list substructure_smiles

/-- Model of `MoleculeService.start_search_task`: validate the query, raise
`InvalidSmilesStringException` when invalid, else submit the job with the
query string as payload (`.ok` carries the payload the worker will later
receive verbatim). -/
def start_search_task (chem : Chem) (st : ServiceState) (substructure_smiles : String) :
    Except ServiceError String × ServiceState :=
  match validateSmiles chem st.rdkit_cache substructure_smiles with
  | (false, rc) => (.error (.invalidSmiles substructure_smiles),
      { st with rdkit_cache := rc })
  | (true, rc) => (.ok substructure_smiles, { st with rdkit_cache := rc })

/-- The memo states the process can reach: every entry maps a parseable
string to `true` (only valid strings are ever inserted). -/
def RdkitCacheWF (chem : Chem) (rdkit_cache : RdkitCache) : Prop :=
  ∀ s b, rdkit_cache.lookup s = some b → b = true ∧ (chem.parse s).isSome

/-- The table invariant the store keeps: every row's id was assigned by the
sequence, hence is below `nextId`. -/
def StoreWF (store : Store) : Prop :=
  ∀ r ∈ store.records, r.id < store.nextId

/-- Folding `_validate_smiles` over a list of inputs starting from the
empty memo, keeping the final memo (`runValidations chem (s :: seen)`
first processes `seen`, then `s`). -/
def runValidations (chem : Chem) : List String → RdkitCache
  | [] => []
  | s :: seen => (validateSmiles chem (runValidations chem seen) s).2

/-- A small concrete chemistry capability used to evaluate the model on
closed inputs: a molecular graph is represented by the string itself, a
string parses exactly when it is outside a fixed list of unparseable
strings (in particular the empty string parses, as it does under RDKit),
and containment is a toy computable test. -/
def testChem : Chem where
  Mol := String
  parse := fun s => if s ∈ ["!q", "!bad"] then none else some s
  hasSubstructMatch := fun m q => decide (q.length ≤ m.length)

/-- A cache state holding an entry for id 1 while the store holds no row at
all: the configuration the read-through path can be confronted with after
an out-of-band deletion. -/
def staleCacheState : ServiceState where
  store := ⟨2, []⟩
  cache := [(molKey 1, ⟨1, "CCO", some "Ethanol"⟩)]
  rdkit_cache := []

/-- Deleting a key really removes it: looking the key up after
`cacheDelete` yields nothing. -/
theorem cacheGet_cacheDelete (cache : Cache) (key : String) :
    cacheGet (cacheDelete cache key) key = none := by
  induction cache with
  | nil => rfl
  | cons p rest ih =>
    by_cases h : p.1 = key
    · simpa [cacheDelete, List.filter_cons, h] using ih
    · have hne : ¬(key = p.1) := fun hk => h hk.symm
      simpa [cacheDelete, List.filter_cons, h, cacheGet, List.lookup_cons, hne] using ih

/-- A successful `updateMoleculeTail` leaves no cache entry for the id. -/
theorem updateMoleculeTail_ok_cache (st : ServiceState) (molecule_id : Nat)
    (molecule_update : MoleculeUpdate) (r : MoleculeInDB) (st1 : ServiceState)
    (h : updateMoleculeTail st molecule_id molecule_update = (.ok r, st1)) :
    cacheGet st1.cache (molKey molecule_id) = none := by
  unfold updateMoleculeTail at h
  split at h
  · simp at h
  · simp at h
  · rw [Prod.mk.injEq] at h
    obtain ⟨hr, hst⟩ := h
    subst hst
    exact cacheGet_cacheDelete st.cache (molKey molecule_id)

/-- C10: whenever `get(id)` fails with `NotFound`, the cache is unchanged —
the cache-population write happens only after a record was found in the
store. -/
theorem getMolecule_notFound_no_cache_write (st : ServiceState) (molecule_id : Nat)
    (h : (getMolecule st molecule_id).1 = .error (.notFound molecule_id)) :
    ((getMolecule st molecule_id).2).cache = st.cache := by
  unfold getMolecule at *
  cases hc : cacheGet st.cache (molKey molecule_id) with
  | some cached => simp [hc] at h
  | none =>
    cases hg : st.store.get_by_id molecule_id with
    | none => simp [hc, hg]
    | some row => simp [hc, hg] at h

/-- C10 witness: a concrete `NotFound` read leaves the (empty) cache
untouched. -/
theorem getMolecule_notFound_no_cache_write_witness :
    (getMolecule ⟨⟨1, []⟩, [], []⟩ 1).1 = .error (.notFound 1) ∧
    ((getMolecule ⟨⟨1, []⟩, [], []⟩ 1).2).cache = [] :=
  ⟨rfl, getMolecule_notFound_no_cache_write ⟨⟨1, []⟩, [], []⟩ 1 rfl⟩

/-- C3: every successful `update` and every successful `delete` leaves no
cache entry for the mutated id, whatever the cache held before. -/
theorem mutation_invalidates_cache (chem : Chem) (st : ServiceState)
    (molecule_id : Nat) (molecule_update : MoleculeUpdate) :
    (∀ r st1, updateMolecule chem st molecule_id molecule_update = (.ok r, st1) →
      cacheGet st1.cache (molKey molecule_id) = none) ∧
    (∀ m st1, deleteMolecule st molecule_id = (.ok m, st1) →
      cacheGet st1.cache (molKey molecule_id) = none) := by
  constructor
  · intro r st1 h
    unfold updateMolecule at h
    split at h
    · split at h
      · split at h
        · simp at h
        · exact updateMoleculeTail_ok_cache _ _ _ _ _ h
      · exact updateMoleculeTail_ok_cache _ _ _ _ _ h
    · exact updateMoleculeTail_ok_cache _ _ _ _ _ h
  · intro m st1 h
    unfold deleteMolecule at h
    split at h
    · simp at h
    · rw [Prod.mk.injEq] at h
      obtain ⟨hm, hst⟩ := h
      subst hst
      exact cacheGet_cacheDelete st.cache (molKey molecule_id)

/-- C3 witness: on a one-row store whose cache holds an entry for id 1,
a concrete successful update and a concrete successful delete both leave no
entry for the key. -/
theorem mutation_invalidates_cache_witness :
    (∀ r st1,
      updateMolecule testChem
        ⟨⟨2, [⟨1, "CCO", none⟩]⟩, [(molKey 1, ⟨1, "CCO", none⟩)], []⟩ 1
        ⟨none, some "Ethanol"⟩ = (.ok r, st1) →
      cacheGet st1.cache (molKey 1) = none) ∧
    (∀ m st1,
      deleteMolecule
        ⟨⟨2, [⟨1, "CCO", none⟩]⟩, [(molKey 1, ⟨1, "CCO", none⟩)], []⟩ 1 = (.ok m, st1) →
      cacheGet st1.cache (molKey 1) = none) :=
  mutation_invalidates_cache testChem
    ⟨⟨2, [⟨1, "CCO", none⟩]⟩, [(molKey 1, ⟨1, "CCO", none⟩)], []⟩ 1 ⟨none, some "Ethanol"⟩

/-- C2 counterexample: with a cache entry present for id 1 and no row in
the store, `get(1)` returns the cached record instead of failing with
`NotFound` — the claim fails as stated. -/
theorem getMolecule_stale_cache_counterexample :
    (getMolecule staleCacheState 1).1 = .ok ⟨1, "CCO", some "Ethanol"⟩ ∧
    (getMolecule staleCacheState 1).1 ≠ .error (.notFound 1) := by
  constructor
  · rfl
  · intro h
    rw [show (getMolecule staleCacheState 1).1 = .ok ⟨1, "CCO", some "Ethanol"⟩ from rfl] at h
    exact Except.noConfusion h

/-- C2 amended: when the cache holds no entry for the id (the read-through
miss path), `get(id)` on an id with no store row fails with `NotFound`. -/
theorem getMolecule_notFound_on_cache_miss (st : ServiceState) (molecule_id : Nat)
    (hc : cacheGet st.cache (molKey molecule_id) = none)
    (hs : st.store.get_by_id molecule_id = none) :
    (getMolecule st molecule_id).1 = .error (.notFound molecule_id) := by
  unfold getMolecule
  rw [hc, hs]

/-- C2 amended witness: a concrete empty cache and empty store make `get(7)`
fail with `NotFound`. -/
theorem getMolecule_notFound_on_cache_miss_witness :
    (getMolecule ⟨⟨1, []⟩, [], []⟩ 7).1 = .error (.notFound 7) :=
  getMolecule_notFound_on_cache_miss ⟨⟨1, []⟩, [], []⟩ 7 rfl rfl

/-- On a well-formed memo, validating an unparseable string returns `false`
and leaves the memo unchanged. -/
theorem validateSmiles_invalid (chem : Chem) (rc : RdkitCache) (s : String)
    (hwf : RdkitCacheWF chem rc) (h : chem.parse s = none) :
    validateSmiles chem rc s = (false, rc) := by
  unfold validateSmiles
  cases hs : rc.lookup s with
  | some b => exact absurd (hwf s b hs).2 (by simp [h])
  | none => simp [h]

/-- On a well-formed memo, a `true` answer from the validator means the
string parses. -/
theorem validateSmiles_true_parse (chem : Chem) (rc : RdkitCache) (s : String)
    (hwf : RdkitCacheWF chem rc) (h : (validateSmiles chem rc s).1 = true) :
    (chem.parse s).isSome := by
  unfold validateSmiles at h
  cases hs : rc.lookup s with
  | some b =>
    exact (hwf s b hs).2
  | none =>
    rw [hs] at h
    by_cases hv : (chem.parse s).isSome
    · exact hv
    · rw [if_neg hv] at h
      exact absurd h (by simp)

/-- The memo after validating each string of `seen` (starting from the
empty memo) holds exactly the parseable strings of `seen`, each mapped to
`true`. -/
theorem lookup_runValidations (chem : Chem) (seen : List String) :
    ∀ t, (runValidations chem seen).lookup t =
      if t ∈ seen ∧ (chem.parse t).isSome then some true else none := by
  induction seen with
  | nil => intro t; simp [runValidations]
  | cons s rest ih =>
    intro t
    show ((validateSmiles chem (runValidations chem rest) s).2).lookup t = _
    unfold validateSmiles
    cases hs : (runValidations chem rest).lookup s with
    | some b =>
      have hcond : s ∈ rest ∧ (chem.parse s).isSome := by
        by_contra hc
        rw [ih s, if_neg hc] at hs
        exact Option.noConfusion hs
      have hiff : (t ∈ rest ∧ (chem.parse t).isSome) ↔
          (t ∈ s :: rest ∧ (chem.parse t).isSome) := by
        constructor
        · rintro ⟨hm, hv⟩; exact ⟨List.mem_cons_of_mem _ hm, hv⟩
        · rintro ⟨hm, hv⟩
          rcases List.mem_cons.mp hm with h1 | h1
          · exact ⟨h1 ▸ hcond.1, hv⟩
          · exact ⟨h1, hv⟩
      rw [ih t] at *
      exact if_congr hiff rfl rfl
    | none =>
      by_cases hv : (chem.parse s).isSome
      · rw [if_pos hv]
        by_cases hts : t = s
        · subst hts
          simp [List.lookup_cons, hv]
        · have htb : (t == s) = false := by simp [hts]
          simp only [List.lookup_cons, htb]
          rw [ih t]
          have hiff : (t ∈ rest ∧ (chem.parse t).isSome) ↔
              (t ∈ s :: rest ∧ (chem.parse t).isSome) := by
            constructor
            · rintro ⟨hm, hp⟩; exact ⟨List.mem_cons_of_mem _ hm, hp⟩
            · rintro ⟨hm, hp⟩
              rcases List.mem_cons.mp hm with h1 | h1
              · exact absurd h1 hts
              · exact ⟨h1, hp⟩
          exact if_congr hiff rfl rfl
      · rw [if_neg hv]
        by_cases hts : t = s
        · subst hts
          simp [ih t, hv]
        · rw [ih t]
          have hiff : (t ∈ rest ∧ (chem.parse t).isSome) ↔
              (t ∈ s :: rest ∧ (chem.parse t).isSome) := by
            constructor
            · rintro ⟨hm, hp⟩; exact ⟨List.mem_cons_of_mem _ hm, hp⟩
            · rintro ⟨hm, hp⟩
              rcases List.mem_cons.mp hm with h1 | h1
              · exact absurd h1 hts
              · exact ⟨h1, hp⟩
          exact if_congr hiff rfl rfl

/-- C7: on the memo reached by any sequence of validations from the empty
memo, `_validate_smiles` answers exactly parseability (totality of the
model is the no-raise contract), and afterwards the memo maps a string to
`true` exactly when it has been seen and is valid — invalid strings are
never memoized. -/
theorem validate_answers_parse_and_memoizes_only_valid (chem : Chem)
    (seen : List String) (s : String) :
    (validateSmiles chem (runValidations chem seen) s).1 = (chem.parse s).isSome ∧
    ∀ t, ((validateSmiles chem (runValidations chem seen) s).2).lookup t =
      if t ∈ s :: seen ∧ (chem.parse t).isSome then some true else none := by
  constructor
  · unfold validateSmiles
    cases hs : (runValidations chem seen).lookup s with
    | some b =>
      have h := lookup_runValidations chem seen s
      rw [hs] at h
      by_cases hc : s ∈ seen ∧ (chem.parse s).isSome
      · rw [if_pos hc] at h
        have hb : b = true := by injection h
        simp [hb, hc.2]
      · rw [if_neg hc] at h
        exact Option.noConfusion h
    | none =>
      by_cases hv : (chem.parse s).isSome
      · simp [hv]
      · simp [hv]
  · intro t
    exact lookup_runValidations chem (s :: seen) t

/-- C5: `create` with an unparseable structure fails with
`InvalidSmilesStringException` and leaves the store exactly as it was. -/
theorem create_invalid_no_store_write (chem : Chem) (st : ServiceState) (s : String)
    (n : Option String) (hwf : RdkitCacheWF chem st.rdkit_cache)
    (h : chem.parse s = none) :
    (createMolecule chem st ⟨s, n⟩).1 = .error (.invalidSmiles s) ∧
    ((createMolecule chem st ⟨s, n⟩).2).store = st.store := by
  have hval := validateSmiles_invalid chem st.rdkit_cache s hwf h
  constructor <;> simp [createMolecule, hval]

/-- C5 witness: a concrete unparseable create on the empty state fails and
leaves the empty store intact. -/
theorem create_invalid_no_store_write_witness :
    (createMolecule testChem ⟨⟨1, []⟩, [], []⟩ ⟨"!bad", none⟩).1 =
      .error (.invalidSmiles "!bad") ∧
    ((createMolecule testChem ⟨⟨1, []⟩, [], []⟩ ⟨"!bad", none⟩).2).store =
      (⟨1, []⟩ : Store) :=
  create_invalid_no_store_write testChem ⟨⟨1, []⟩, [], []⟩ "!bad" none
    (fun _ _ hs => nomatch hs) rfl

/-- An `updateMoleculeTail` outcome is never an invalid-structure error:
only the validation guard raises it. -/
theorem updateMoleculeTail_ne_invalid (st : ServiceState) (molecule_id : Nat)
    (molecule_update : MoleculeUpdate) (s : String) :
    (updateMoleculeTail st molecule_id molecule_update).1 ≠
      .error (.invalidSmiles s) := by
  unfold updateMoleculeTail
  split <;> simp

/-- C4: when the partial update carries a structure it is validated first —
an unparseable structure makes `update` fail with
`InvalidSmilesStringException` whatever the store holds — and when the
structure field is absent no invalid-structure failure can occur.  The
hypothesis that the empty string parses reflects RDKit, whose
`MolFromSmiles("")` yields the (non-null) empty molecule, so the guard's
truthiness shortcut on `""` never skips a failing validation. -/
theorem update_validates_present_structure (chem : Chem) (st : ServiceState)
    (molecule_id : Nat) (molecule_update : MoleculeUpdate)
    (hempty : (chem.parse "").isSome)
    (hwf : RdkitCacheWF chem st.rdkit_cache) :
    (∀ s, molecule_update.smiles_string = some s → chem.parse s = none →
      (updateMolecule chem st molecule_id molecule_update).1 =
        .error (.invalidSmiles s)) ∧
    (molecule_update.smiles_string = none →
      ∀ s, (updateMolecule chem st molecule_id molecule_update).1 ≠
        .error (.invalidSmiles s)) := by
  constructor
  · intro s hs hparse
    have hne : ¬(s = "") := by
      intro he
      rw [he] at hparse
      rw [hparse] at hempty
      exact absurd hempty (by simp)
    have hval := validateSmiles_invalid chem st.rdkit_cache s hwf hparse
    simp [updateMolecule, hs, pyTruthy, hne, hval]
  · intro hs s
    simp only [updateMolecule, hs]
    exact updateMoleculeTail_ne_invalid st molecule_id molecule_update s

/-- C4 witness: on the empty state, updating id 1 with the unparseable
structure string fails with the invalid-structure error, and an update
carrying no structure never raises it. -/
theorem update_validates_present_structure_witness :
    ((testChem.parse "").isSome = true) ∧
    (∀ s, (⟨some "!bad", none⟩ : MoleculeUpdate).smiles_string = some s →
      testChem.parse s = none →
      (updateMolecule testChem ⟨⟨1, []⟩, [], []⟩ 1 ⟨some "!bad", none⟩).1 =
        .error (.invalidSmiles s)) ∧
    ((⟨some "!bad", none⟩ : MoleculeUpdate).smiles_string = none →
      ∀ s, (updateMolecule testChem ⟨⟨1, []⟩, [], []⟩ 1 ⟨some "!bad", none⟩).1 ≠
        .error (.invalidSmiles s)) :=
  ⟨rfl,
    (update_validates_present_structure testChem ⟨⟨1, []⟩, [], []⟩ 1
      ⟨some "!bad", none⟩ rfl (fun _ _ hs => nomatch hs)).1,
    (update_validates_present_structure testChem ⟨⟨1, []⟩, [], []⟩ 1
      ⟨some "!bad", none⟩ rfl (fun _ _ hs => nomatch hs)).2⟩

/-- C9: a query the service accepted at submission (the validator answered
`true` on a reachable memo) can never trip the worker's invalid-query
branch: `substructure_search` re-parses the same string with the same
deterministic parser and succeeds on any candidate list. -/
theorem accepted_query_never_invalid_at_worker (chem : Chem) (st : ServiceState)
    (q payload : String) (cands : List String) (st1 : ServiceState)
    (hwf : RdkitCacheWF chem st.rdkit_cache)
    (haccept : start_search_task chem st q = (.ok payload, st1)) :
    ∃ l, substructure_search chem cands q = .ok l := by
  unfold start_search_task at haccept
  split at haccept
  · simp at haccept
  · rename_i rc heq
    have hq : (chem.parse q).isSome :=
      validateSmiles_true_parse chem st.rdkit_cache q hwf (by rw [heq])
    obtain ⟨qm, hqm⟩ := Option.isSome_iff_exists.mp hq
    exact ⟨_, by unfold substructure_search; rw [hqm]⟩

/-- C9 witness: the concrete accepted query `"CO"` runs without the
invalid-substructure error on a concrete candidate list. -/
theorem accepted_query_never_invalid_at_worker_witness :
    ∃ l, substructure_search testChem ["CCO", "!bad"] "CO" = .ok l :=
  accepted_query_never_invalid_at_worker testChem ⟨⟨1, []⟩, [], []⟩ "CO" "CO"
    ["CCO", "!bad"] ⟨⟨1, []⟩, [], [("CO", true)]⟩ (fun _ _ hs => nomatch hs) rfl

/-- C1: for every store and every parseable query, the search job succeeds
and its payload is exactly the store's structure strings, in ascending-id
iteration order, filtered to those whose parsed graph contains the query
graph — strings that fail to parse are silently dropped. -/
theorem search_success_returns_ordered_matches (chem : Chem) (store : Store)
    (q : String) (qmol : chem.Mol) (hq : chem.parse q = some qmol) :
    run_substructure_search chem store q =
      .ok (store.get_all_smiles_stream.filter (matchesQuery chem qmol)) := by
  by_cases he : store.get_all_smiles_stream.isEmpty
  · have hnil : store.get_all_smiles_stream = [] := List.isEmpty_iff.mp he
    simp [run_substructure_search, he, hnil]
  · simp [run_substructure_search, substructure_search, he, hq]

/-- C1 witness: a concrete two-row store (rows listed out of id order) with
the parseable query `"CO"` yields exactly the filtered stream. -/
theorem search_success_returns_ordered_matches_witness :
    testChem.parse "CO" = some "CO" ∧
    run_substructure_search testChem
        ⟨3, [⟨2, "!bad", none⟩, ⟨1, "CCO", some "Ethanol"⟩]⟩ "CO" =
      .ok ((Store.get_all_smiles_stream
          ⟨3, [⟨2, "!bad", none⟩, ⟨1, "CCO", some "Ethanol"⟩]⟩).filter
        (matchesQuery testChem "CO")) :=
  ⟨rfl, search_success_returns_ordered_matches testChem
    ⟨3, [⟨2, "!bad", none⟩, ⟨1, "CCO", some "Ethanol"⟩]⟩ "CO" "CO" rfl⟩

/-- C6 counterexample: with an empty store and the unparseable query `"!q"`
the job returns early and ends in `SUCCESS` with an empty list — it does
not reach the failing parse, so the claim is false as stated. -/
theorem empty_store_invalid_query_still_succeeds :
    run_substructure_search testChem ⟨1, []⟩ "!q" = .ok [] ∧
    ∀ e, run_substructure_search testChem ⟨1, []⟩ "!q" ≠ .error e := by
  constructor
  · rfl
  · intro e h
    rw [show run_substructure_search testChem ⟨1, []⟩ "!q" = .ok [] from rfl] at h
    exact Except.noConfusion h

/-- C6 amended: when at least one candidate was streamed from the store, an
unparseable query makes the job end in `FAILURE` with the error's
description (`"Invalid substructure"`) as its result payload. -/
theorem nonempty_store_invalid_query_fails (chem : Chem) (store : Store) (q : String)
    (hne : store.get_all_smiles_stream ≠ [])
    (hq : chem.parse q = none) :
    run_substructure_search chem store q = .error "Invalid substructure" := by
  have he : store.get_all_smiles_stream.isEmpty = false := by
    cases hb : store.get_all_smiles_stream.isEmpty
    · rfl
    · exact absurd (List.isEmpty_iff.mp hb) hne
  simp [run_substructure_search, substructure_search, he, hq]

/-- C6 amended witness: a one-row store with the unparseable query `"!q"`
fails with the invalid-substructure description. -/
theorem nonempty_store_invalid_query_fails_witness :
    Store.get_all_smiles_stream ⟨2, [⟨1, "CCO", none⟩]⟩ ≠ [] ∧
    run_substructure_search testChem ⟨2, [⟨1, "CCO", none⟩]⟩ "!q" =
      .error "Invalid substructure" :=
  ⟨by decide,
    nonempty_store_invalid_query_fails testChem ⟨2, [⟨1, "CCO", none⟩]⟩ "!q"
      (by decide) rfl⟩

/-- C8: on a state whose row ids are below the id sequence and whose cache
holds no entry for a not-yet-assigned id, a successful `create(s, n)`
followed by `get` on the returned record's id (no intervening mutation)
yields that very record, carrying structure `s` and name `n`. -/
theorem create_then_get_roundtrip (chem : Chem) (st : ServiceState) (s : String)
    (n : Option String) (mol : chem.Mol) (hs : chem.parse s = some mol)
    (hids : StoreWF st.store)
    (hfresh : ∀ j, st.store.nextId ≤ j → cacheGet st.cache (molKey j) = none)
    (r : MoleculeInDB) (st1 : ServiceState)
    (hcreate : createMolecule chem st ⟨s, n⟩ = (.ok r, st1)) :
    r.smiles_string = s ∧ r.name = n ∧ (getMolecule st1 r.id).1 = .ok r := by
  unfold createMolecule at hcreate
  split at hcreate
  · simp at hcreate
  · split at hcreate
    · simp at hcreate
    · rename_i row store1 hadd
      rw [Prod.mk.injEq, Except.ok.injEq] at hcreate
      obtain ⟨h1, h2⟩ := hcreate
      subst h1
      subst h2
      unfold Store.add at hadd
      split at hadd
      · simp at hadd
      · rw [Except.ok.injEq, Prod.mk.injEq] at hadd
        obtain ⟨hr, hstore⟩ := hadd
        subst hr
        subst hstore
        refine ⟨rfl, rfl, ?_⟩
        have hcache :
            cacheGet st.cache (molKey st.store.nextId) = none :=
          hfresh st.store.nextId (Nat.le_refl _)
        have hget : Store.get_by_id
            ⟨st.store.nextId + 1, st.store.records ++ [⟨st.store.nextId, s, n⟩]⟩
            st.store.nextId = some ⟨st.store.nextId, s, n⟩ := by
          unfold Store.get_by_id
          rw [List.find?_append]
          have hnone : List.find?
              (fun r2 => r2.id == st.store.nextId) st.store.records = none := by
            rw [List.find?_eq_none]
            intro x hx
            simp [Nat.ne_of_lt (hids x hx)]
          rw [hnone]
          simp [List.find?_cons]
        simp [getMolecule, hcache, hget]

/-- C8 witness: creating `("CCO", "Ethanol")` on the empty state and
reading back the returned id yields the same structure and name. -/
theorem create_then_get_roundtrip_witness :
    testChem.parse "CCO" = some "CCO" ∧
    ∀ r st1,
      createMolecule testChem ⟨⟨1, []⟩, [], []⟩ ⟨"CCO", some "Ethanol"⟩ = (.ok r, st1) →
      r.smiles_string = "CCO" ∧ r.name = some "Ethanol" ∧
        (getMolecule st1 r.id).1 = .ok r :=
  ⟨rfl, fun r st1 hcreate =>
    create_then_get_roundtrip testChem ⟨⟨1, []⟩, [], []⟩ "CCO" (some "Ethanol")
      "CCO" rfl (fun _ hx => nomatch hx) (fun _ _ => rfl) r st1 hcreate⟩

end Molecules
